import Mathlib

/-!
Shallow embedding of the b2tag file-integrity tagger (repository sdats/b2tag).

The modelled units are:
* `src/utilities.c` / `utilities.h` — `ts_compare` (timestamp comparison);
* `src/xa.c`   — the extended-attribute record store (`xa_read_timestamp`,
  `xa_read_checksum`, `xa_clear`, `xa_compute`, `xa_read`, `xa_write`);
* `src/file.c` — the reconciliation engine (`get_file_state`, `check_file`,
  `process_path2`);
* `src/b2tag.c` — the per-file aggregation loop of `main`.

File descriptors, the filesystem and OpenSSL are replaced by explicit
environment values: the outcome of each primitive extended-attribute read,
the digest the hash provider would produce, and the success of each
primitive write are inputs of the model.
-/

namespace B2tag

/-- `struct timespec`: seconds and nanoseconds as signed machine integers. -/
structure Timespec where
  sec : Int
  nsec : Int
deriving DecidableEq

/-- `err_t` from `xa.h`. -/
inductive Err
  | ok
  | ioError
  | notFound
  | invalid
  | unsupported
deriving DecidableEq

/-- `enum file_state` from `file.c`. -/
inductive FileState
  | fault
  | ok
  | same
  | new
  | outdated
  | backdated
  | corrupt
  | invalid
deriving DecidableEq

/-- `hash_alg_t` from `hash.h`. -/
inductive HashAlg
  | blake2b
  | blake2s
  | sha512
  | sha256
  | sha1
  | md5
deriving DecidableEq

/-- `get_alg_size` from `hash.c`: the digest byte length `EVP_MD_size` reports
for each algorithm. -/
def get_alg_size : HashAlg → Nat
  | HashAlg.blake2b => 64
  | HashAlg.blake2s => 32
  | HashAlg.sha512 => 64
  | HashAlg.sha256 => 32
  | HashAlg.sha1 => 20
  | HashAlg.md5 => 16

/-- Modelled from the spec: `ts_compare(ts1, ts2, fuzzy)`.  The b2tag revision
of this function is missing from `src/` — `src/utilities.h` declares a
three-argument `ts_compare` with a `fuzzy` flag and `src/file.c:212` calls it
with three arguments, but `src/utilities.c` holds the stale two-argument
cshatag revision, which cannot be the body those files link against.
Following the spec: seconds are compared first; with `fuzzy` set, two
timestamps within the same second and within one microsecond of each other
(nanosecond difference at most 999 in absolute value, the window the cshatag
body realises by truncating the difference toward zero by 1000) are treated
as equal; without `fuzzy` the nanosecond difference is compared exactly.
The sign convention follows `utilities.h`: negative when `ts1` is earlier,
positive when later. -/
def ts_compare (ts1 ts2 : Timespec) (fuzzy : Bool) : Int :=
  let dsec := ts1.sec - ts2.sec
  let dnsec := ts1.nsec - ts2.nsec
  if 0 < dsec then 2
  else if dsec < 0 then -2
  else
    let d := if fuzzy ∧ dnsec.natAbs ≤ 999 then 0 else dnsec
    if 0 < d then 1
    else if d < 0 then -1
    else 0

/-- `isxdigit` from ctype, as used by `xa_read_checksum`. -/
def isxdigit (c : Char) : Bool :=
  (('0' ≤ c) && (c ≤ '9')) || (('a' ≤ c) && (c ≤ 'f')) || (('A' ≤ c) && (c ≤ 'F'))

/-- `isupper` from ctype. -/
def isupper (c : Char) : Bool :=
  ('A' ≤ c) && (c ≤ 'Z')

/-- `tolower` from ctype, for the ASCII range the program feeds it. -/
def tolower (c : Char) : Char :=
  if isupper c then Char.ofNat (c.toNat + 32) else c

/-- The text stored in the `user.shatag.ts` attribute, in structured form:
the seconds figure parsed by `%ld`, and, when a dot followed by at least one
digit is present, the list of fractional digits after the dot.  `frac = none`
covers both a missing dot and a dot followed by no digit, the cases in which
`sscanf` returns 1. -/
structure TsText where
  sec : Int
  frac : Option (List Nat)
deriving DecidableEq

/-- The value a digit string denotes, most significant digit first. -/
def digitsVal (ds : List Nat) : Nat :=
  ds.foldl (fun a d => 10 * a + d) 0

/-- The 9-digit zero-padded decimal rendering `%09lu` produces:
`natToDigitsPadded n w` is the list of the low `w` decimal digits of `n`,
most significant first. -/
def natToDigitsPadded : Nat → Nat → List Nat
  | _, 0 => []
  | n, w + 1 => n / 10 ^ w % 10 :: natToDigitsPadded n w

/-- The outcome of `xa_read_timestamp`'s parsing step. -/
structure TsParse where
  res : Err
  sec : Int
  nsec : Int
  fuzzy : Bool
deriving DecidableEq

/-- The body of `xa_read_timestamp` (xa.c lines 112-126) after a successful
low-level attribute read, on structured text.  The `sscanf` format is
`"%ld.%n%10ld"` with a final `%n`: `%10ld` consumes at most ten characters,
so `end - start = min (length of the fractional digits) 10` and the parsed
nanosecond figure is the value of the first ten digits.  When no fractional
part matches (`sscanf` returns 1, which passes the `err < 1` test), the
C locals `start` and `end` are read uninitialized; `junk` stands for the
indeterminate `end - start` in that case, and the nanosecond output is the
caller's zeroed field, scaled (still zero) by the loop. -/
def xa_read_timestamp_parse (t : TsText) (junk : Int) : TsParse :=
  match t.frac with
  | some ds =>
    let nd : Nat := min ds.length 10
    let raw : Nat := digitsVal (ds.take 10)
    let nsec : Int := if nd < 9 then Int.ofNat raw * (10 : Int) ^ (9 - nd) else Int.ofNat raw
    let fuzzy : Bool := nd < 9
    if 1000000000 ≤ nsec ∨ 10 ≤ nd then ⟨Err.invalid, t.sec, nsec, fuzzy⟩
    else ⟨Err.ok, t.sec, nsec, fuzzy⟩
  | none =>
    let fuzzy : Bool := junk < 9
    let endv : Int := if junk < 9 then 9 else junk
    if 1000000000 ≤ (0 : Int) ∨ 10 ≤ endv then ⟨Err.invalid, t.sec, 0, fuzzy⟩
    else ⟨Err.ok, t.sec, 0, fuzzy⟩

/-- The outcome of one low-level `fgetxattr` read (`xa_read_xattr`):
`ok` carries the stored value; `range` is the `ERANGE` case, which
`xa_read_xattr` maps to `E_INVALID`. -/
inductive PrimRes (α : Type)
  | ok (v : α)
  | notFound
  | unsupported
  | ioError
  | range
deriving DecidableEq

/-- `xa_read_timestamp` (xa.c lines 95-127): low-level read of the
`user.shatag.ts` attribute followed by the parse above.  The returned
timespec and fuzzy flag are the values left in the caller's (zeroed)
output variables. -/
def xa_read_timestamp (r : PrimRes TsText) (junk : Int) : Err × Timespec × Bool :=
  match r with
  | PrimRes.ok t =>
    let p := xa_read_timestamp_parse t junk
    (p.res, ⟨p.sec, p.nsec⟩, p.fuzzy)
  | PrimRes.notFound => (Err.notFound, ⟨0, 0⟩, false)
  | PrimRes.unsupported => (Err.unsupported, ⟨0, 0⟩, false)
  | PrimRes.ioError => (Err.ioError, ⟨0, 0⟩, false)
  | PrimRes.range => (Err.invalid, ⟨0, 0⟩, false)

/-- `xa_read_checksum` (xa.c lines 142-170): read the digest attribute for
`alg`, reject a value whose length is not `2 * get_alg_size alg` or that
contains a non-hex character, and fold uppercase hex digits to lowercase.
The second component is the resulting checksum string, meaningful only when
the first is `Err.ok`. -/
def xa_read_checksum (alg : HashAlg) (r : PrimRes (List Char)) : Err × List Char :=
  match r with
  | PrimRes.ok s =>
    if s.length ≠ 2 * get_alg_size alg then (Err.invalid, [])
    else if s.all isxdigit then (Err.ok, s.map tolower)
    else (Err.invalid, [])
  | PrimRes.notFound => (Err.notFound, [])
  | PrimRes.unsupported => (Err.unsupported, [])
  | PrimRes.ioError => (Err.ioError, [])
  | PrimRes.range => (Err.invalid, [])

/-- `xa_t` from `xa.h`. -/
structure XaT where
  valid : Bool
  fuzzy : Bool
  mtime : Timespec
  alg : HashAlg
  hash : List Char
deriving DecidableEq

/-- `xa_clear` (xa.c lines 191-212): keep the algorithm, zero everything
else, and fill the hash with ASCII '0' characters to the algorithm's hex
length. -/
def xa_clear (xa : XaT) : XaT :=
  { valid := false
    fuzzy := false
    mtime := ⟨0, 0⟩
    alg := xa.alg
    hash := List.replicate (2 * get_alg_size xa.alg) '0' }

/-- What the two primitive extended-attribute reads of one file yield, plus
the indeterminate stack value `xa_read_timestamp` would use on a
fraction-less timestamp. -/
structure XaEnv where
  ts : PrimRes TsText
  tsJunk : Int
  hash : PrimRes (List Char)
deriving DecidableEq

/-- `xa_read` (xa.c lines 229-280): clear the record, read the timestamp
attribute then the checksum attribute, mapping each error to the documented
return value (1 absent, -1 unsupported or I/O error, 2 malformed) with the
record left cleared; on success return 0 with the populated record. -/
def xa_read (env : XaEnv) (alg : HashAlg) : Int × XaT :=
  let cleared : XaT := xa_clear { valid := false, fuzzy := false, mtime := ⟨0, 0⟩, alg := alg, hash := [] }
  let tsr := xa_read_timestamp env.ts env.tsJunk
  match tsr.1 with
  | Err.notFound => (1, cleared)
  | Err.unsupported => (-1, cleared)
  | Err.ioError => (-1, cleared)
  | Err.invalid => (2, cleared)
  | Err.ok =>
    let csr := xa_read_checksum alg env.hash
    match csr.1 with
    | Err.notFound => (1, cleared)
    | Err.unsupported => (-1, cleared)
    | Err.ioError => (-1, cleared)
    | Err.invalid => (2, cleared)
    | Err.ok => (0, { valid := true, fuzzy := tsr.2.2, mtime := tsr.2.1, alg := alg, hash := csr.2 })

/-- The two extended attributes of one file as stored on disk. -/
structure XaStore where
  tsAttr : Option TsText
  hashAttr : Option (List Char)
deriving DecidableEq

/-- A present attribute reads back as its value, an absent one as `ENOATTR`. -/
def primOfOption {α : Type} : Option α → PrimRes α
  | none => PrimRes.notFound
  | some v => PrimRes.ok v

/-- The read environment a store presents when no I/O fault occurs. -/
def envOfStore (st : XaStore) (junk : Int) : XaEnv :=
  { ts := primOfOption st.tsAttr, tsJunk := junk, hash := primOfOption st.hashAttr }

/-- `xa_write_timestamp`'s formatting `"%lu.%09lu"` (xa.c line 134): the
seconds figure followed by the nanoseconds zero-padded to nine digits. -/
def format_timestamp (mtime : Timespec) : TsText :=
  ⟨mtime.sec, some (natToDigitsPadded mtime.nsec.toNat 9)⟩

/-- `xa_write` (xa.c lines 282-305): refuse an invalid record with `-EINVAL`
(-22); otherwise write the checksum attribute, then the timestamp attribute,
returning -1 as soon as one primitive write fails.  `csOk` and `tsOk` are the
outcomes of the two `fsetxattr` calls; a failed call leaves its attribute
unchanged. -/
def xa_write (xa : XaT) (st : XaStore) (csOk tsOk : Bool) : Int × XaStore :=
  if xa.valid = false then (-22, st)
  else if csOk = false then (-1, st)
  else
    let st1 : XaStore := { st with hashAttr := some xa.hash }
    if tsOk = false then (-1, st1)
    else (0, { st1 with tsAttr := some (format_timestamp xa.mtime) })

/-- The per-file environment `get_file_state` and `check_file` run in:
the `fstat` outcome (consulted only when the caller left the mtime seconds
zero), the attribute-read outcomes, and what the hash provider would
produce (`fhash`'s output string and return status). -/
structure FsEnv where
  fstatRes : Option Timespec
  xaEnv : XaEnv
  computedHash : List Char
  computeOk : Bool
deriving DecidableEq

/-- `xa_compute` (xa.c lines 214-227): run `fhash` on the file; on success
store the digest string and mark the record valid; on failure leave the
record as it was (`fhash` reports the error before filling the buffer). -/
def xa_compute (env : FsEnv) (xa : XaT) : XaT :=
  if env.computeOk then { xa with hash := env.computedHash, valid := true } else xa

/-- The result of `get_file_state`: the classification, the two records as
left by the call, and whether `xa_compute` (hashing) was invoked. -/
structure GfsOut where
  state : FileState
  stored : XaT
  actual : XaT
  hashed : Bool
deriving DecidableEq

/-- `get_file_state` (file.c lines 177-234).  When the caller's mtime seconds
are zero the live mtime comes from `fstat`, whose failure is `FAULT`; then
the stored record is read (`xa_read`), with absence giving `NEW` and a
malformed record `INVALID` (both after hashing); otherwise the stored and
live timestamps are compared with `ts_compare`, equal timestamps
short-circuit to `OK` without hashing unless check mode is on, and the
digest comparison resolves the remaining states. -/
def get_file_state (env : FsEnv) (check : Bool) (stored actual : XaT) : GfsOut :=
  if actual.mtime.sec = 0 ∧ env.fstatRes = none then
    ⟨FileState.fault, stored, actual, false⟩
  else
    let actual1 : XaT :=
      if actual.mtime.sec = 0 then { actual with mtime := env.fstatRes.getD ⟨0, 0⟩ } else actual
    let err : Int := (xa_read env.xaEnv stored.alg).1
    let stored1 : XaT := (xa_read env.xaEnv stored.alg).2
    if err < 0 then ⟨FileState.fault, stored1, actual1, false⟩
    else if err = 1 then ⟨FileState.new, stored1, xa_compute env actual1, true⟩
    else if 2 ≤ err then ⟨FileState.invalid, stored1, xa_compute env actual1, true⟩
    else
      let comparison := ts_compare stored1.mtime actual1.mtime stored1.fuzzy
      if comparison = 0 ∧ check = false then ⟨FileState.ok, stored1, actual1, false⟩
      else
        let actual2 := xa_compute env actual1
        if stored1.hash = actual2.hash then
          ⟨if comparison = 0 then FileState.ok else FileState.same, stored1, actual2, true⟩
        else if comparison < 0 then ⟨FileState.outdated, stored1, actual2, true⟩
        else if 0 < comparison then ⟨FileState.backdated, stored1, actual2, true⟩
        else ⟨FileState.corrupt, stored1, actual2, true⟩

/-- The states the `switch` in `check_file` treats as critical (file.c lines
289-293): backdated, corrupt, fault and invalid. -/
def isCritState : FileState → Bool
  | FileState.backdated => true
  | FileState.corrupt => true
  | FileState.fault => true
  | FileState.invalid => true
  | _ => false

/-- `check_file` after the call to `get_file_state` (file.c lines 277-317):
`FAULT` returns -1 at once; `OK` returns 0; a critical state without force
returns 1 with no write; dry-run returns the pending error code with no
write; otherwise `xa_write` is called, a failure returning 2.  The second
component records whether `xa_write` was called.  `writeOk` is the outcome
of that call. -/
def check_file_tail (state : FileState) (force dry_run writeOk : Bool) : Int × Bool :=
  if state = FileState.fault then (-1, false)
  else if state = FileState.ok then (0, false)
  else
    let err : Int := if isCritState state then 1 else 0
    if isCritState state = true ∧ force = false then (1, false)
    else if dry_run then (err, false)
    else if writeOk then (0, true) else (2, true)

/-- `check_file` (file.c lines 247-318): both records start zeroed with the
configured algorithm, the live mtime is taken from the caller's `stat`
result, and the update policy of `check_file_tail` is applied to the
classification. -/
def check_file (env : FsEnv) (st_mtime : Timespec) (alg : HashAlg)
    (check force dry_run writeOk : Bool) : Int × Bool :=
  let a0 : XaT := { valid := false, fuzzy := false, mtime := st_mtime, alg := alg, hash := [] }
  let s0 : XaT := { valid := false, fuzzy := false, mtime := ⟨0, 0⟩, alg := alg, hash := [] }
  check_file_tail (get_file_state env check s0 a0).state force dry_run writeOk

/-- What one path given to `process_path2` turns out to be: unopenable,
un-stat-able, a regular file (carrying its `check_file` result), a directory
(carrying its `check_dir` result), or something else. -/
inductive PathCase
  | openFail
  | statFail
  | regular (cf : Int)
  | directory (sub : Int)
  | other
deriving DecidableEq

/-- `process_path2` (file.c lines 442-484): open failure returns 1, stat
failure returns -1, a regular file returns its `check_file` result, a
directory returns 1 unless recursion is enabled, anything else returns 1. -/
def process_path2 (c : PathCase) (recursive : Bool) : Int :=
  match c with
  | PathCase.openFail => 1
  | PathCase.statFail => -1
  | PathCase.regular cf => cf
  | PathCase.directory sub => if recursive then sub else 1
  | PathCase.other => 1

/-- The argument loop of `main` (b2tag.c lines 210-229) over the per-path
results: a negative result returns the aggregate built so far, a positive
result is kept only when the aggregate is still zero.  The second component
counts how many paths were processed before the loop ended. -/
def main_loop : List Int → Int → Int × Nat
  | [], ret => (ret, 0)
  | e :: rest, ret =>
    if e < 0 then (ret, 1)
    else
      let ret1 := if ret = 0 ∧ 0 < e then e else ret
      let r := main_loop rest ret1
      (r.1, r.2 + 1)

/-- The update condition of claim C3, written from the spec's words, to be
compared with the condition `check_file_tail` realises: the state is not OK,
dry-run is unset, and either force is set or the state is none of BACKDATED,
CORRUPT, FAULT, INVALID. -/
def c3_claim_condition (state : FileState) (force dry_run : Bool) : Prop :=
  state ≠ FileState.ok ∧ dry_run = false ∧
    (force = true ∨
      (state ≠ FileState.backdated ∧ state ≠ FileState.corrupt ∧
       state ≠ FileState.fault ∧ state ≠ FileState.invalid))

instance (state : FileState) (force dry_run : Bool) :
    Decidable (c3_claim_condition state force dry_run) := by
  unfold c3_claim_condition
  infer_instance

/-- A sample stored md5 digest string (32 lowercase hex characters). -/
def sHash : List Char := List.replicate 32 'a'

/-- A sample per-file environment: the stored record parses cleanly to
digest `sHash` and mtime 5.123456789 s, and hashing would produce a
different digest. -/
def sEnv : FsEnv :=
  { fstatRes := none
    xaEnv :=
      { ts := PrimRes.ok ⟨5, some [1, 2, 3, 4, 5, 6, 7, 8, 9]⟩
        tsJunk := 0
        hash := PrimRes.ok sHash }
    computedHash := List.replicate 32 'b'
    computeOk := true }

/-- The zeroed stored-record structure `check_file` starts from, for md5. -/
def sStored : XaT :=
  { valid := false, fuzzy := false, mtime := ⟨0, 0⟩, alg := HashAlg.md5, hash := [] }

/-- The record `xa_read` recovers from `sEnv`. -/
def sRec : XaT :=
  { valid := true, fuzzy := false, mtime := ⟨5, 123456789⟩, alg := HashAlg.md5, hash := sHash }

/-- A live-record structure whose mtime (7 s) differs from the stored one. -/
def sActualLater : XaT :=
  { valid := false, fuzzy := false, mtime := ⟨7, 0⟩, alg := HashAlg.md5, hash := [] }

/-- A live-record structure whose mtime equals the stored one. -/
def sActualEq : XaT :=
  { valid := false, fuzzy := false, mtime := ⟨5, 123456789⟩, alg := HashAlg.md5, hash := [] }

/-- A per-file environment whose stored digest attribute is malformed:
only 10 characters against md5's expected 32. -/
def uEnv : FsEnv :=
  { fstatRes := none
    xaEnv :=
      { ts := PrimRes.ok ⟨5, some [1, 2, 3, 4, 5, 6, 7, 8, 9]⟩
        tsJunk := 0
        hash := PrimRes.ok (List.replicate 10 'a') }
    computedHash := List.replicate 32 'b'
    computeOk := true }

/-- A well-formed md5 digest string containing uppercase hex characters. -/
def uUpper : List Char := 'A' :: 'B' :: List.replicate 30 'f'

/-- A sample valid record to write and read back. -/
def wRec : XaT :=
  { valid := true, fuzzy := true, mtime := ⟨100, 123⟩, alg := HashAlg.md5, hash := sHash }

/-! Helper lemmas about the decimal digit codec, lowercase folding and the
aggregation loop. -/

theorem natToDigitsPadded_length (n w : Nat) : (natToDigitsPadded n w).length = w := by
  induction w generalizing n with
  | zero => rfl
  | succ w ih => simp [natToDigitsPadded, ih]

theorem natToDigitsPadded_succ (w n : Nat) :
    natToDigitsPadded n (w + 1) = natToDigitsPadded (n / 10) w ++ [n % 10] := by
  induction w generalizing n with
  | zero => simp [natToDigitsPadded]
  | succ w ih =>
    have hd : n / 10 / 10 ^ w = n / 10 ^ (w + 1) := by
      rw [Nat.div_div_eq_div_mul, pow_succ']
    calc natToDigitsPadded n (w + 2)
        = n / 10 ^ (w + 1) % 10 :: natToDigitsPadded n (w + 1) := rfl
      _ = n / 10 ^ (w + 1) % 10 :: (natToDigitsPadded (n / 10) w ++ [n % 10]) := by rw [ih]
      _ = natToDigitsPadded (n / 10) (w + 1) ++ [n % 10] := by
          simp [natToDigitsPadded, hd]

theorem digitsVal_append_one (ds : List Nat) (d : Nat) :
    digitsVal (ds ++ [d]) = 10 * digitsVal ds + d := by
  simp [digitsVal, List.foldl_append]

theorem digitsVal_natToDigitsPadded (w n : Nat) (h : n < 10 ^ w) :
    digitsVal (natToDigitsPadded n w) = n := by
  induction w generalizing n with
  | zero =>
    interval_cases n
    rfl
  | succ w ih =>
    have hdiv : n / 10 < 10 ^ w := by
      rw [Nat.div_lt_iff_lt_mul (by norm_num)]
      calc n < 10 ^ (w + 1) := h
        _ = 10 ^ w * 10 := by rw [pow_succ]
    rw [natToDigitsPadded_succ, digitsVal_append_one, ih _ hdiv]
    omega

theorem tolower_of_not_upper (c : Char) (h : isupper c = false) : tolower c = c := by
  simp [tolower, h]

theorem map_tolower_id (s : List Char) (h : ∀ c ∈ s, isupper c = false) :
    s.map tolower = s := by
  induction s with
  | nil => rfl
  | cons c cs ih =>
    simp only [List.map_cons]
    rw [tolower_of_not_upper c (h c (by simp)), ih (fun x hx => h x (by simp [hx]))]

theorem main_loop_ret_of_ne (l : List Int) (r : Int) (hr : r ≠ 0) :
    (main_loop l r).1 = r := by
  induction l generalizing r with
  | nil => rfl
  | cons e rest ih =>
    unfold main_loop
    by_cases he : e < 0
    · simp [he]
    · simp only [if_neg he]
      rw [if_neg (by simp [hr])]
      exact ih r hr

theorem main_loop_processed (l : List Int) (r : Int) (h : ∀ x ∈ l, 0 ≤ x) :
    (main_loop l r).2 = l.length := by
  induction l generalizing r with
  | nil => rfl
  | cons e rest ih =>
    unfold main_loop
    rw [if_neg (by have := h e (by simp); omega)]
    simp only [List.length_cons]
    rw [ih _ (fun x hx => h x (by simp [hx]))]

theorem main_loop_pos (l1 l2 : List Int) (e : Int) (h1 : ∀ x ∈ l1, 0 ≤ x) (he : 0 < e) :
    (main_loop (l1 ++ e :: l2) 0).1 ≠ 0 := by
  induction l1 with
  | nil =>
    simp only [List.nil_append]
    unfold main_loop
    rw [if_neg (by omega), if_pos ⟨rfl, he⟩]
    simp only []
    rw [main_loop_ret_of_ne l2 e (by omega)]
    omega
  | cons x xs ih =>
    have hx : 0 ≤ x := h1 x (by simp)
    simp only [List.cons_append]
    unfold main_loop
    rw [if_neg (by omega)]
    split_ifs with hcond
    · obtain ⟨-, hxp⟩ := hcond
      rw [main_loop_ret_of_ne _ x (by omega)]
      omega
    · exact ih (fun y hy => h1 y (by simp [hy]))

/-- C1: when a valid stored record exists (xa_read returns 0), a digest was
freshly computed (the fast path was not taken) and it differs from the
stored digest, the classification is decided solely by the timestamp
comparison: stored earlier than live (comparison negative) gives OUTDATED,
stored later (positive) gives BACKDATED, comparing equal gives CORRUPT. -/
theorem C1_digest_mismatch_classification
    (env : FsEnv) (check : Bool) (stored0 actual0 s : XaT)
    (hm : actual0.mtime.sec ≠ 0)
    (hread : xa_read env.xaEnv stored0.alg = (0, s))
    (hq : ¬(ts_compare s.mtime actual0.mtime s.fuzzy = 0 ∧ check = false))
    (hdiff : s.hash ≠ (xa_compute env actual0).hash) :
    (get_file_state env check stored0 actual0).state =
      if ts_compare s.mtime actual0.mtime s.fuzzy < 0 then FileState.outdated
      else if 0 < ts_compare s.mtime actual0.mtime s.fuzzy then FileState.backdated
      else FileState.corrupt := by
  have h1 : ¬(actual0.mtime.sec = 0 ∧ env.fstatRes = none) := fun h => hm h.1
  simp only [get_file_state, if_neg h1, if_neg hm, hread]
  norm_num
  rw [if_neg hq, if_neg hdiff]
  split_ifs <;> rfl

/-- C1 witness: a stored record at 5.123456789 s against a live mtime of
7 s with differing digests classifies OUTDATED. -/
theorem C1_digest_mismatch_classification_witness :
    (get_file_state sEnv false sStored sActualLater).state =
      (if ts_compare sRec.mtime sActualLater.mtime sRec.fuzzy < 0 then FileState.outdated
       else if 0 < ts_compare sRec.mtime sActualLater.mtime sRec.fuzzy then FileState.backdated
       else FileState.corrupt) :=
  C1_digest_mismatch_classification sEnv false sStored sActualLater sRec
    (by decide) (by decide) (by decide) (by decide)

/-- C2: when a valid stored record exists, equal timestamps outside check
mode short-circuit to OK without computing a digest; otherwise the digest is
computed, and when it matches the stored one the state is OK if the
timestamps compared equal and SAME if they did not. -/
theorem C2_fast_path_and_hash_match
    (env : FsEnv) (check : Bool) (stored0 actual0 s : XaT)
    (hm : actual0.mtime.sec ≠ 0)
    (hread : xa_read env.xaEnv stored0.alg = (0, s)) :
    ((ts_compare s.mtime actual0.mtime s.fuzzy = 0 ∧ check = false) →
      (get_file_state env check stored0 actual0).state = FileState.ok ∧
      (get_file_state env check stored0 actual0).hashed = false) ∧
    (¬(ts_compare s.mtime actual0.mtime s.fuzzy = 0 ∧ check = false) →
      (get_file_state env check stored0 actual0).hashed = true ∧
      (s.hash = (xa_compute env actual0).hash →
        (get_file_state env check stored0 actual0).state =
          (if ts_compare s.mtime actual0.mtime s.fuzzy = 0 then FileState.ok
           else FileState.same))) := by
  have h1 : ¬(actual0.mtime.sec = 0 ∧ env.fstatRes = none) := fun h => hm h.1
  simp only [get_file_state, if_neg h1, if_neg hm, hread]
  rw [if_neg (by norm_num), if_neg (by norm_num), if_neg (by norm_num)]
  constructor
  · intro hfast
    rw [if_pos hfast]
    exact ⟨rfl, rfl⟩
  · intro hq
    rw [if_neg hq]
    refine ⟨?_, ?_⟩
    · split_ifs <;> rfl
    · intro hsame
      rw [if_pos hsame]

/-- C2 witness: with stored and live mtime both 5.123456789 s and check mode
off, the state is OK and no digest is computed. -/
theorem C2_fast_path_and_hash_match_witness :
    (get_file_state sEnv false sStored sActualEq).state = FileState.ok ∧
    (get_file_state sEnv false sStored sActualEq).hashed = false :=
  (C2_fast_path_and_hash_match sEnv false sStored sActualEq sRec
    (by decide) (by decide)).1 (by decide)

/-- C3 counterexample: the claim's write condition holds for a FAULT state
with force set and dry-run unset, yet `check_file` returns -1 before any
attribute write is attempted, so the claimed "if and only if" fails. -/
theorem C3_update_policy_counterexample :
    ¬(((check_file_tail FileState.fault true false true).2 = true) ↔
        c3_claim_condition FileState.fault true false) := by
  decide

/-- C3 (amended): an attribute write is attempted if and only if the state is
neither OK nor FAULT, dry-run is unset, and either force is set or the state
is none of BACKDATED, CORRUPT, INVALID; a FAULT classification aborts the
file's processing before the update policy applies, even with force. -/
theorem C3_update_policy_amended (state : FileState) (force dry_run writeOk : Bool) :
    (check_file_tail state force dry_run writeOk).2 = true ↔
      (state ≠ FileState.ok ∧ state ≠ FileState.fault ∧ dry_run = false ∧
        (force = true ∨
          (state ≠ FileState.backdated ∧ state ≠ FileState.corrupt ∧
           state ≠ FileState.invalid))) := by
  cases state <;> cases force <;> cases dry_run <;> cases writeOk <;> decide

/-- C4: with the fuzzy flag set, two timestamps within the same second and
within one microsecond of each other compare equal; without it, the
comparison is zero exactly when the two timestamps are identical, so any
nonzero nanosecond difference compares unequal. -/
theorem C4_ts_compare_fuzzy (t1 t2 : Timespec) :
    ((t1.sec = t2.sec ∧ (t1.nsec - t2.nsec).natAbs ≤ 999) → ts_compare t1 t2 true = 0) ∧
    (ts_compare t1 t2 false = 0 ↔ t1 = t2) := by
  obtain ⟨s1, n1⟩ := t1
  obtain ⟨s2, n2⟩ := t2
  simp only [ts_compare, Timespec.mk.injEq]
  constructor
  · rintro ⟨hs, hn⟩
    split_ifs <;> simp_all
  · constructor
    · intro h
      split_ifs at h <;> simp_all <;> omega
    · rintro ⟨hs, hn⟩
      split_ifs <;> simp_all

/-- C4 witness: 5.000000100 s and 5.000000800 s compare equal under a fuzzy
record; a 1 ns difference compares unequal on an exact record. -/
theorem C4_ts_compare_fuzzy_witness :
    ts_compare ⟨5, 100⟩ ⟨5, 800⟩ true = 0 ∧
    (ts_compare ⟨5, 100⟩ ⟨5, 101⟩ false = 0 ↔ (⟨5, 100⟩ : Timespec) = ⟨5, 101⟩) :=
  ⟨(C4_ts_compare_fuzzy ⟨5, 100⟩ ⟨5, 800⟩).1 (by constructor <;> decide),
   (C4_ts_compare_fuzzy ⟨5, 100⟩ ⟨5, 101⟩).2⟩

/-- C5 counterexample: a stat failure makes `process_path2` return -1, which
makes `main` stop after that path with the aggregate built so far: a run
whose first path cannot be stat'ed exits 0 (not non-zero) and the second
path is never processed. -/
theorem C5_per_file_errors_counterexample :
    process_path2 PathCase.statFail false = -1 ∧
    main_loop [process_path2 PathCase.statFail false,
               process_path2 PathCase.openFail false] 0 = (0, 1) := by
  decide

/-- C5 (amended): the listed per-file errors other than a stat failure —
cannot open, not a regular file or directory, and an attribute write failure
(the surfacing of a digest I/O error) — are recoverable: the per-path result
is positive, every path is still processed, and the aggregate exit status is
non-zero.  A stat failure instead returns -1 and aborts the run. -/
theorem C5_per_file_errors_amended (rec force : Bool) (state : FileState)
    (l1 l2 : List Int) (e : Int)
    (h1 : ∀ x ∈ l1, 0 ≤ x)
    (hstate : state ≠ FileState.ok ∧ state ≠ FileState.fault ∧
      (isCritState state = false ∨ force = true))
    (he : e = process_path2 PathCase.openFail rec ∨
          e = process_path2 PathCase.other rec ∨
          e = process_path2 (PathCase.regular (check_file_tail state force false false).1) rec) :
    0 < e ∧ (main_loop (l1 ++ e :: l2) 0).1 ≠ 0 ∧
      ((∀ x ∈ l2, 0 ≤ x) → (main_loop (l1 ++ e :: l2) 0).2 = l1.length + 1 + l2.length) := by
  have hcf : (check_file_tail state force false false).1 = 2 := by
    obtain ⟨ho, hf, hcrit⟩ := hstate
    unfold check_file_tail
    rw [if_neg hf, if_neg ho]
    rcases hcrit with hc | hc
    · rw [if_neg (by simp [hc])]
      simp
    · rw [if_neg (by simp [hc])]
      simp
  have hepos : 0 < e := by
    rcases he with rfl | rfl | rfl
    · norm_num [process_path2]
    · norm_num [process_path2]
    · rw [hcf] at *
      norm_num [process_path2]
  refine ⟨hepos, main_loop_pos l1 l2 e h1 hepos, fun h2 => ?_⟩
  rw [main_loop_processed]
  · simp only [List.length_append, List.length_cons]
    omega
  · intro x hx
    rcases List.mem_append.mp hx with h | h
    · exact h1 x h
    · rcases List.mem_cons.mp h with rfl | h
      · omega
      · exact h2 x h

/-- C5 witness: a single unopenable path yields result 1, a non-zero
aggregate exit status, with the whole list processed. -/
theorem C5_per_file_errors_amended_witness :
    0 < process_path2 PathCase.openFail false ∧
    (main_loop (([] : List Int) ++ process_path2 PathCase.openFail false :: ([] : List Int)) 0).1 ≠ 0 ∧
    (main_loop (([] : List Int) ++ process_path2 PathCase.openFail false :: ([] : List Int)) 0).2 =
      ([] : List Int).length + 1 + ([] : List Int).length := by
  have h := C5_per_file_errors_amended false false FileState.new [] []
    (process_path2 PathCase.openFail false) (by simp) (by decide) (Or.inl rfl)
  exact ⟨h.1, h.2.1, h.2.2 (by simp)⟩

/-- C6 counterexample: with force set, dry-run unset and the attribute write
succeeding, a CORRUPT file contributes 0, so a run consisting of that file
exits 0 — the claimed "non-zero exit status regardless of other option
settings" fails. -/
theorem C6_corrupt_exit_counterexample :
    (check_file_tail FileState.corrupt true false true).1 = 0 ∧
    (main_loop [(check_file_tail FileState.corrupt true false true).1] 0).1 = 0 := by
  decide

/-- C6 (amended): a CORRUPT classification never aborts the run (its per-file
result is non-negative and every path is still processed), and the aggregate
exit status is non-zero — the generic recoverable value, not a distinguished
one — unless force is set, dry-run unset, and the subsequent attribute write
succeeds, in which case the file contributes 0. -/
theorem C6_corrupt_exit_amended (force dry_run writeOk : Bool) (l1 l2 : List Int)
    (h1 : ∀ x ∈ l1, 0 ≤ x) (h2 : ∀ x ∈ l2, 0 ≤ x) :
    0 ≤ (check_file_tail FileState.corrupt force dry_run writeOk).1 ∧
    (main_loop (l1 ++ (check_file_tail FileState.corrupt force dry_run writeOk).1 :: l2) 0).2 =
      l1.length + 1 + l2.length ∧
    (¬(force = true ∧ dry_run = false ∧ writeOk = true) →
      (main_loop (l1 ++ (check_file_tail FileState.corrupt force dry_run writeOk).1 :: l2) 0).1 ≠ 0) := by
  have h0 : 0 ≤ (check_file_tail FileState.corrupt force dry_run writeOk).1 := by
    cases force <;> cases dry_run <;> cases writeOk <;> decide
  refine ⟨h0, ?_, fun hno => ?_⟩
  · rw [main_loop_processed]
    · simp only [List.length_append, List.length_cons]
      omega
    · intro x hx
      rcases List.mem_append.mp hx with h | h
      · exact h1 x h
      · rcases List.mem_cons.mp h with rfl | h
        · exact h0
        · exact h2 x h
  · have hpos : 0 < (check_file_tail FileState.corrupt force dry_run writeOk).1 := by
      cases force <;> cases dry_run <;> cases writeOk <;>
        first
          | decide
          | exact absurd ⟨rfl, rfl, rfl⟩ hno
    exact main_loop_pos l1 l2 _ h1 hpos

/-- C6 witness: a CORRUPT file without force yields per-file result 1 and a
non-zero aggregate over a one-file run. -/
theorem C6_corrupt_exit_amended_witness :
    0 ≤ (check_file_tail FileState.corrupt false false false).1 ∧
    (main_loop (([] : List Int) ++ (check_file_tail FileState.corrupt false false false).1 :: ([] : List Int)) 0).2 =
      ([] : List Int).length + 1 + ([] : List Int).length ∧
    (main_loop (([] : List Int) ++ (check_file_tail FileState.corrupt false false false).1 :: ([] : List Int)) 0).1 ≠ 0 := by
  have h := C6_corrupt_exit_amended false false false [] [] (by simp) (by simp)
  exact ⟨h.1, h.2.1, h.2.2 (by decide)⟩

/-- C7: on a whole-seconds timestamp with no fractional part (sscanf returns
1, passing the `err < 1` test), `xa_read_timestamp` reads the uninitialized
locals `start` and `end`: depending on that indeterminate value the very same
stored text "1335974989" is accepted as fuzzy, accepted as non-fuzzy, or
rejected as invalid — the documented "optional fractional part" behavior is
undefined in the code. -/
theorem C7_timestamp_parse_bug :
    (xa_read_timestamp_parse ⟨1335974989, none⟩ 0).res = Err.ok ∧
    (xa_read_timestamp_parse ⟨1335974989, none⟩ 0).fuzzy = true ∧
    (xa_read_timestamp_parse ⟨1335974989, none⟩ 9).res = Err.ok ∧
    (xa_read_timestamp_parse ⟨1335974989, none⟩ 9).fuzzy = false ∧
    (xa_read_timestamp_parse ⟨1335974989, none⟩ 12).res = Err.invalid := by
  decide

/-- C8: a stored digest attribute of the wrong length or containing a
non-hex character makes `xa_read` return 2 with the record fully cleared
(never partially trusted), `get_file_state` classifies the file INVALID and
still computes the current digest; a well-formed digest containing uppercase
hex is accepted and folded to lowercase, not rejected. -/
theorem C8_invalid_checksum_handling
    (env : FsEnv) (check : Bool) (stored0 actual0 : XaT) (s : List Char)
    (hm : actual0.mtime.sec ≠ 0)
    (hts : (xa_read_timestamp env.xaEnv.ts env.xaEnv.tsJunk).1 = Err.ok)
    (hhash : env.xaEnv.hash = PrimRes.ok s)
    (hbad : s.length ≠ 2 * get_alg_size stored0.alg ∨ s.all isxdigit = false) :
    (xa_read env.xaEnv stored0.alg).1 = 2 ∧
    (xa_read env.xaEnv stored0.alg).2.valid = false ∧
    (xa_read env.xaEnv stored0.alg).2.hash = List.replicate (2 * get_alg_size stored0.alg) '0' ∧
    (get_file_state env check stored0 actual0).state = FileState.invalid ∧
    (get_file_state env check stored0 actual0).hashed = true ∧
    (∀ s2 : List Char, s2.length = 2 * get_alg_size stored0.alg → s2.all isxdigit = true →
      xa_read_checksum stored0.alg (PrimRes.ok s2) = (Err.ok, s2.map tolower)) := by
  have hcs : xa_read_checksum stored0.alg env.xaEnv.hash = (Err.invalid, []) := by
    rw [hhash]
    simp only [xa_read_checksum]
    rcases hbad with hb | hb
    · rw [if_pos hb]
    · by_cases hl : s.length ≠ 2 * get_alg_size stored0.alg
      · rw [if_pos hl]
      · rw [if_neg hl, if_neg (by simp [hb])]
  have hread : xa_read env.xaEnv stored0.alg =
      (2, xa_clear { valid := false, fuzzy := false, mtime := ⟨0, 0⟩, alg := stored0.alg, hash := [] }) := by
    simp only [xa_read]
    rw [hts, hcs]
  have h1 : ¬(actual0.mtime.sec = 0 ∧ env.fstatRes = none) := fun h => hm h.1
  have hgfs : (get_file_state env check stored0 actual0).state = FileState.invalid ∧
      (get_file_state env check stored0 actual0).hashed = true := by
    simp only [get_file_state, if_neg h1, if_neg hm, hread]
    rw [if_neg (by norm_num), if_neg (by norm_num), if_pos (by norm_num)]
    exact ⟨rfl, rfl⟩
  refine ⟨by rw [hread], by rw [hread]; rfl, by rw [hread]; rfl, hgfs.1, hgfs.2, ?_⟩
  intro s2 hl2 hx2
  simp only [xa_read_checksum]
  rw [if_neg (by simp [hl2]), if_pos hx2]

/-- C8 witness: a 10-character digest attribute against md5 (expecting 32)
reads back as 2 with a cleared record and classifies INVALID with the digest
recomputed; the mixed-case digest "AB" followed by 30 'f's is accepted and
lowercased. -/
theorem C8_invalid_checksum_handling_witness :
    (xa_read uEnv.xaEnv sStored.alg).1 = 2 ∧
    (xa_read uEnv.xaEnv sStored.alg).2.valid = false ∧
    (xa_read uEnv.xaEnv sStored.alg).2.hash = List.replicate (2 * get_alg_size sStored.alg) '0' ∧
    (get_file_state uEnv false sStored sActualLater).state = FileState.invalid ∧
    (get_file_state uEnv false sStored sActualLater).hashed = true ∧
    xa_read_checksum sStored.alg (PrimRes.ok uUpper) = (Err.ok, uUpper.map tolower) := by
  have h := C8_invalid_checksum_handling uEnv false sStored sActualLater (List.replicate 10 'a')
    (by decide) (by decide) (by decide) (by decide)
  exact ⟨h.1, h.2.1, h.2.2.1, h.2.2.2.1, h.2.2.2.2.1, h.2.2.2.2.2 uUpper (by decide) (by decide)⟩

/-- C9: writing a valid record (correct-length lowercase hex digest,
non-negative timestamp with nanoseconds below one second) and reading it
back succeeds and reproduces the exact digest string and the timestamp to
full nanosecond precision, with the record read as valid and not fuzzy. -/
theorem C9_record_round_trip (xa : XaT) (st : XaStore) (junk : Int)
    (hv : xa.valid = true)
    (hlen : xa.hash.length = 2 * get_alg_size xa.alg)
    (hhex : ∀ c ∈ xa.hash, isxdigit c = true ∧ isupper c = false)
    (hsec : 0 ≤ xa.mtime.sec)
    (hns0 : 0 ≤ xa.mtime.nsec) (hns : xa.mtime.nsec < 1000000000) :
    (xa_write xa st true true).1 = 0 ∧
    (xa_read (envOfStore (xa_write xa st true true).2 junk) xa.alg).1 = 0 ∧
    (xa_read (envOfStore (xa_write xa st true true).2 junk) xa.alg).2.hash = xa.hash ∧
    (xa_read (envOfStore (xa_write xa st true true).2 junk) xa.alg).2.mtime = xa.mtime ∧
    (xa_read (envOfStore (xa_write xa st true true).2 junk) xa.alg).2.fuzzy = false ∧
    (xa_read (envOfStore (xa_write xa st true true).2 junk) xa.alg).2.valid = true := by
  have hw : xa_write xa st true true =
      (0, ⟨some (format_timestamp xa.mtime), some xa.hash⟩) := by
    unfold xa_write
    rw [hv]
    simp
  have hnat : xa.mtime.nsec.toNat < 10 ^ 9 := by omega
  have hlen9 : (natToDigitsPadded xa.mtime.nsec.toNat 9).length = 9 :=
    natToDigitsPadded_length _ 9
  have htake : (natToDigitsPadded xa.mtime.nsec.toNat 9).take 10 =
      natToDigitsPadded xa.mtime.nsec.toNat 9 :=
    List.take_of_length_le (by rw [hlen9]; norm_num)
  have hval : digitsVal (natToDigitsPadded xa.mtime.nsec.toNat 9) = xa.mtime.nsec.toNat :=
    digitsVal_natToDigitsPadded 9 _ hnat
  have hparse : xa_read_timestamp_parse (format_timestamp xa.mtime) junk =
      ⟨Err.ok, xa.mtime.sec, xa.mtime.nsec, false⟩ := by
    simp only [format_timestamp, xa_read_timestamp_parse, hlen9, htake, hval,
      show min (9 : Nat) 10 = 9 from rfl,
      show ((9 : Nat) < 9) = False from by norm_num,
      show ((10 : Nat) ≤ 9) = False from by norm_num,
      if_false, decide_False, or_false, Int.ofNat_eq_natCast]
    rw [if_neg (by omega)]
    simp only [TsParse.mk.injEq, true_and, and_true]
    omega
  have hts : xa_read_timestamp (PrimRes.ok (format_timestamp xa.mtime)) junk =
      (Err.ok, xa.mtime, false) := by
    simp only [xa_read_timestamp, hparse]
  have hcs : xa_read_checksum xa.alg (PrimRes.ok xa.hash) = (Err.ok, xa.hash) := by
    simp only [xa_read_checksum]
    rw [if_neg (by simp [hlen]), if_pos (List.all_eq_true.mpr (fun c hc => (hhex c hc).1)),
      map_tolower_id xa.hash (fun c hc => (hhex c hc).2)]
  have hread : xa_read (envOfStore (xa_write xa st true true).2 junk) xa.alg =
      (0, { valid := true, fuzzy := false, mtime := xa.mtime, alg := xa.alg, hash := xa.hash }) := by
    rw [hw]
    simp only [xa_read, envOfStore, primOfOption]
    rw [hts, hcs]
  rw [hread, hw]
  exact ⟨rfl, rfl, rfl, rfl, rfl, rfl⟩

/-- C9 witness: a valid md5 record with digest of 32 'a's and mtime
100.000000123 s round-trips exactly through an empty store. -/
theorem C9_record_round_trip_witness :
    (xa_write wRec ⟨none, none⟩ true true).1 = 0 ∧
    (xa_read (envOfStore (xa_write wRec ⟨none, none⟩ true true).2 0) wRec.alg).1 = 0 ∧
    (xa_read (envOfStore (xa_write wRec ⟨none, none⟩ true true).2 0) wRec.alg).2.hash = wRec.hash ∧
    (xa_read (envOfStore (xa_write wRec ⟨none, none⟩ true true).2 0) wRec.alg).2.mtime = wRec.mtime ∧
    (xa_read (envOfStore (xa_write wRec ⟨none, none⟩ true true).2 0) wRec.alg).2.fuzzy = false ∧
    (xa_read (envOfStore (xa_write wRec ⟨none, none⟩ true true).2 0) wRec.alg).2.valid = true :=
  C9_record_round_trip wRec ⟨none, none⟩ 0
    (by decide) (by decide) (by decide) (by decide) (by decide) (by decide)

/-- C10: whenever `xa_write` returns an error, the timestamp attribute is
unmodified; an invalid record is refused with -EINVAL before either
attribute is written, and a failed digest write stops the sequence before
the timestamp write is attempted. -/
theorem C10_write_error_ts_unmodified (xa : XaT) (st : XaStore) (csOk tsOk : Bool) :
    ((xa_write xa st csOk tsOk).1 ≠ 0 → (xa_write xa st csOk tsOk).2.tsAttr = st.tsAttr) ∧
    (xa.valid = false → xa_write xa st csOk tsOk = (-22, st)) ∧
    (xa.valid = true → csOk = false → xa_write xa st csOk tsOk = (-1, st)) := by
  unfold xa_write
  cases hv : xa.valid <;> cases csOk <;> cases tsOk <;> simp [hv]

/-- C10 witness: writing an invalid record to an empty store fails with
-EINVAL and leaves the store untouched. -/
theorem C10_write_error_ts_unmodified_witness :
    xa_write { valid := false, fuzzy := false, mtime := ⟨0, 0⟩, alg := HashAlg.md5, hash := [] }
        ⟨none, none⟩ true true = (-22, (⟨none, none⟩ : XaStore)) :=
  (C10_write_error_ts_unmodified
    { valid := false, fuzzy := false, mtime := ⟨0, 0⟩, alg := HashAlg.md5, hash := [] }
    ⟨none, none⟩ true true).2.1 rfl

end B2tag
